import Mathlib

/-!
Verification development for the BUFR query/result-assembly subsystem
(`QueryRunner.cpp`, `ResultSet.cpp`) and the GSI aircraft bias coefficient
converter (`GsiAircraftBiasConverter.cc`).

The C++ code is shallowly embedded: `std::vector` becomes `List`, C++ `int`
and `double` values stored in result buffers become `Int` (no floating-point
arithmetic is ever performed on the stored values — they are only copied and
placed), `size_t` loop counters become `Nat`.  Out-of-bounds element reads
(undefined behaviour in C++) are modelled with `List.getD` defaults and
out-of-bounds writes with `List.set` (a no-op out of range); the safety claim
about index bounds is stated separately over the lengths of the concrete
lists involved.
-/

set_option linter.unusedVariables false

/-- Constant `MissingValue` from `Constants.h`: the missing-value sentinel `10.0e10`
(also written literally as `10.0e10` in `ResultSet::getRowsForField`).
Modelled as the integer `10^11`. -/
def MissingValue : Int := 100000000000

/-- Helper `max` of `VectorMath.h` over a vector (used only on non-empty vectors in the
source); on a non-empty list this is the maximum element. -/
def maxInt (l : List Int) : Int := l.foldl max (l.headD 0)

/-- Helper `sum` of `VectorMath.h` over a vector. -/
def sumInt (l : List Int) : Int := l.foldl (· + ·) 0

/-- Helper `product` of `VectorMath.h` over a vector (an empty range has product 1). -/
def prodInt (l : List Int) : Int := l.foldl (· * ·) 1

/-- Helper `slice(vec, idxs)` of `VectorMath.h`: the elements of `vec` at positions
`idxs` (modelled from the spec: `VectorMath.h` is not among the sources; the
call site `slice(dims, exportDims)` selects the export dimensions). -/
def sliceInt (v : List Int) (idxs : List Int) : List Int :=
  idxs.map (fun i => v.getD i.toNat 0)

namespace QR

/-- Node kinds (`Typ` enum from the query library headers).  Only
`Typ::Subset` is named in the sources; the remaining constructors model the
other kinds named by the spec (§3 SchemaNode). -/
inductive Typ where
  | Subset
  | DelayedRep
  | FixedRep
  | DelayedRepStacked
  | DelayedBinary
  | Sequence
  | Repeat
  | StackedRepeat
  | Number
  | Character
deriving DecidableEq, Inhabited

/-- Whether a node kind introduces a repetition level (spec §3: repeat
constructs / sequences, as opposed to the subset root and leaf fields). -/
def isContainerTyp : Typ → Bool
  | .DelayedRep | .FixedRep | .DelayedRepStacked | .DelayedBinary
  | .Sequence | .Repeat | .StackedRepeat => true
  | _ => false

/-- Type info `TypeInfo` of a schema node; only the long-string classification is
consulted by `QueryRunner::collectData`. -/
structure TypeInfo where
  isLongString : Bool := false
deriving DecidableEq, Inhabited

/-- One query path component (mnemonic plus the optional set of kept 1-based
occurrence indices, C++ `std::vector<size_t> filter`).  The subset selector of
a query is modelled with the same structure (fields `isAnySubset`/`index`). -/
structure QueryComponent where
  mnemonic : String := ""
  filter : List Nat := []
  isAnySubset : Bool := false
  index : Nat := 0
deriving DecidableEq, Inhabited

/-- A parsed query: subset selector, path components, and its string form
(`Query::str()`, kept as stored text since the printer is not among the
sources). -/
structure Query where
  subset : QueryComponent := {}
  path : List QueryComponent := []
  strRepr : String := ""
deriving DecidableEq, Inhabited

/-- Structure `TargetComponent`: one resolved path component of a target
(`QueryRunner::findTargets` fills node id, parent id, dimension-parent id,
kind and fixed repeat count). -/
structure TargetComponent where
  queryComponent : QueryComponent := {}
  nodeId : Nat := 0
  parentNodeId : Nat := 0
  parentDimensionNodeId : Nat := 0
  typ : Typ := .Number
  fixedRepeatCount : Nat := 0
deriving DecidableEq, Inhabited

/-- A resolved `Target`.  `seqPath` lists the node ids of the repeat/sequence
components of `path` (set by `Target::setPath`, which lives in `Target.h`;
modelled from the spec: the sequence path excludes the subset root and the
leaf field, so `QueryRunner::collectData` walks `path[1 .. seqPath.size()]`
over exactly the repeat components). -/
structure Target where
  name : String := ""
  queryStr : String := ""
  nodeIdx : Nat := 0
  typeInfo : TypeInfo := {}
  path : List TargetComponent := []
  seqPath : List Nat := []
  dimPaths : List Query := []
  exportDimIdxs : List Nat := []
  longStrId : String := ""
deriving DecidableEq, Inhabited

/-- Storage `NodeLookupTable::DataVector`: tagged flat value storage — either a
numeric buffer (`std::vector<double>`) or a string buffer
(`std::vector<std::string>`). -/
inductive DataVector where
  | nums : List Int → DataVector
  | strs : List String → DataVector
deriving DecidableEq, Inhabited

/-- Number of values held by a `DataVector`. -/
def DataVector.size : DataVector → Nat
  | .nums xs => xs.length
  | .strs xs => xs.length

/-- Per-node decoded message data exposed by the `NodeLookupTable`:
repetition counts (one per occurrence of the enclosing repeat) and the flat
value buffer. -/
structure NodeData where
  counts : List Int := []
  data : DataVector := .nums []
deriving Inhabited

/-- A per-message, per-target `DataField` as filled by
`QueryRunner::collectData`: the flat value sequence and the per-depth
sequence-count tree (the further members of the C++ `DataField` — unit,
target back-pointer, dimension metadata — are not touched by the collection
claims and are omitted). -/
structure QDataField where
  data : DataVector := .nums []
  seqCounts : List (List Int) := []
deriving DecidableEq, Inhabited

/-- The C++ loop `for (size_t count = 1; count <= layerCounts[countIdx];
count++)`: the 1-based occurrence indices `[1, …, c]` (none when `c ≤ 0`). -/
def oneTo (c : Int) : List Nat := (List.range c.toNat).map (· + 1)

/-- The `n`-fold application of `f` — the C++ loop
`for (countIdx = 0; countIdx < layerCounts.size(); countIdx++)` whose body
does not depend on `countIdx`. -/
def iterApply {σ : Type} (f : σ → σ) : Nat → σ → σ
  | 0, st => st
  | n + 1, st => iterApply f n (f st)

/-- Recursion `QueryRunner::_makeFilteredData`, translated over the suffix of
`origCounts`/`filters` below the current depth (the C++ recursion indexes
both vectors by `depth`; the base case `depth > origCounts.size() - 1` is the
empty suffix).  The state is `(offset, data)`: the source offset and the
output accumulated so far.  The value type is a parameter: the two
`boost::get` branches of the base case perform the same push at different
payload types.  A skipped leaf (`skipResult`) still advances `offset`. -/
def mfdAux {α : Type} (src : List α) (dflt : α) :
    List (List Int) → List (List Nat) → Bool → Nat × List α → Nat × List α
  | [], _fs, skip, (offset, acc) =>
      (offset + 1, if skip then acc else acc ++ [src.getD offset dflt])
  | lc :: ocRest, fs, skip, st =>
      let child : Bool → Nat × List α → Nat × List α :=
        fun sk st2 => mfdAux src dflt ocRest fs.tail sk st2
      let layerFilter := fs.headD []
      if layerFilter.isEmpty then
        iterApply (child skip) lc.length st
      else
        lc.foldl (fun st1 c =>
          (oneTo c).foldl (fun st2 count =>
            child (skip || !(layerFilter.contains count)) st2) st1) st

/-- Driver `QueryRunner::makeFilteredData`: runs `_makeFilteredData` from depth 0
with offset 0, empty output and `skipResult = false` (the defaulted trailing
argument of the declaration), discarding the final offset.  The output buffer
takes the payload type of the source buffer. -/
def makeFilteredData (srcData : DataVector) (origCounts : List (List Int))
    (filters : List (List Nat)) : DataVector :=
  match srcData with
  | .nums xs => .nums (mfdAux xs 0 origCounts filters false (0, [])).2
  | .strs xs => .strs (mfdAux xs "" origCounts filters false (0, [])).2

/-- The output sequence counts built by the path loop of
`QueryRunner::collectData` (lines 173–220): `{1}` at the subset depth, then
per path component the node's counts when the component is unfiltered and
`max(filter.size(), 1)` replicated over the node's count entries when it
carries a filter. -/
def collectSeqCounts (lookup : Nat → NodeData) (targ : Target) : List (List Int) :=
  [1] :: (List.range targ.seqPath.length).map (fun pathIdx =>
    let pc := targ.path.getD (pathIdx + 1) default
    if pc.queryComponent.filter.isEmpty then (lookup pc.nodeId).counts
    else (lookup pc.nodeId).counts.map
      (fun _ => max (pc.queryComponent.filter.length : Int) 1))

/-- Whether any path component of the target carries a filter (the
`hasFilter` flag of the loop). -/
def collectHasFilter (targ : Target) : Bool :=
  (List.range targ.seqPath.length).any (fun pathIdx =>
    !(targ.path.getD (pathIdx + 1) default).queryComponent.filter.isEmpty)

/-- The `counts` vector handed to `makeFilteredData`: `{1}` at every depth
except the filtered depths, which receive the node's unfiltered counts (the
C++ creates this vector lazily, but with exactly this content whenever
`hasFilter` holds). -/
def collectOrigCounts (lookup : Nat → NodeData) (targ : Target) : List (List Int) :=
  [1] :: (List.range targ.seqPath.length).map (fun pathIdx =>
    let pc := targ.path.getD (pathIdx + 1) default
    if pc.queryComponent.filter.isEmpty then [1] else (lookup pc.nodeId).counts)

/-- The `filters` vector handed to `makeFilteredData`: empty at the subset
depth and at unfiltered depths, the component's kept-index set at filtered
depths. -/
def collectFilters (targ : Target) : List (List Nat) :=
  [] :: (List.range targ.seqPath.length).map
    (fun pathIdx => (targ.path.getD (pathIdx + 1) default).queryComponent.filter)

/-- The per-target body of `QueryRunner::collectData` (lines 152–236): fills
one `DataField` from the node lookup table.  A sentinel target
(`nodeIdx = 0`) yields a single missing value (or a single empty string for
long-string types) with count tree `[[1]]`.  Otherwise the value buffer of
the leaf node is copied verbatim when no component is filtered and produced
by `makeFilteredData` over the `counts`/`filters` vectors otherwise. -/
def collectDataField (lookup : Nat → NodeData) (targ : Target) : QDataField :=
  if targ.nodeIdx = 0 then
    { data := if targ.typeInfo.isLongString then .strs [""] else .nums [MissingValue],
      seqCounts := [[1]] }
  else
    { data :=
        if collectHasFilter targ then
          makeFilteredData (lookup (targ.path.getLastD default).nodeId).data
            (collectOrigCounts lookup targ) (collectFilters targ)
        else (lookup (targ.path.getLastD default).nodeId).data,
      seqCounts := collectSeqCounts lookup targ }

/-- A path component with its occurrence filter removed — used to compare a
filtered target with its unfiltered twin. -/
def dropFilter (tc : TargetComponent) : TargetComponent :=
  { tc with queryComponent := { tc.queryComponent with filter := [] } }

/-- A message-type variant (`SubsetVariant`): subset name plus numeric
variant id — the cache key of `QueryRunner::findTargets`. -/
structure SubsetVariant where
  subset : String := ""
  variantId : Nat := 0
deriving DecidableEq, Inhabited

/-- One entry of `BufrNode::getPathNodes()` as consumed by
`QueryRunner::findTargets`: node id, parent node id, dimension-parent node
id, kind, fixed repeat count. -/
structure PathNodeInfo where
  nodeIdx : Nat := 0
  parentIdx : Nat := 0
  dimParentIdx : Nat := 0
  typ : Typ := .Number
  fixedRepCount : Nat := 0
deriving DecidableEq, Inhabited

/-- The schema-table node a query path resolves to (`BufrNode`), with the
root-to-leaf chain `getPathNodes()` flattened into the data
`findTargets` reads from it. -/
structure BufrNode where
  nodeIdx : Nat := 0
  typeInfo : TypeInfo := {}
  mnemonic : String := ""
  mnemonicCnt : Nat := 0
  pathNodes : List PathNodeInfo := []
deriving DecidableEq, Inhabited

/-- The `SubsetTable` built from the data provider for the current variant.
`SubsetTable` itself is not among the sources; modelled from the spec (§4.1):
an immutable tree with a root node and depth-first path resolution
`getNodeForPath`, which returns `none` when some segment cannot be matched. -/
structure SubsetTable where
  rootIdx : Nat := 0
  getNodeForPath : List QueryComponent → Option BufrNode := fun _ => none

/-- The decode provider as seen by `findTargets`: the current subset variant
and the schema table lazily built for it (a pure function of the variant per
spec §5). -/
structure Provider where
  variant : SubsetVariant := {}
  table : SubsetTable := {}

/-- The query set: requested field names in order, and the alternative
queries registered for each name. -/
structure QuerySet where
  names : List String := []
  queriesFor : String → List Query := fun _ => []

/-- Selector match from `findTargets` (lines 62–64): any-subset wildcard, or
subset name and variant id both equal to the current variant. -/
def selectorMatches (v : SubsetVariant) (q : Query) : Bool :=
  q.subset.isAnySubset ||
    (q.subset.mnemonic == v.subset && q.subset.index == v.variantId)

/-- The sub-query loop of `findTargets` (lines 58–70): try the alternative
queries in order; for each whose selector matches, attempt path resolution
and stop at the first that resolves. -/
def resolveForName (table : SubsetTable) (v : SubsetVariant)
    (queries : List Query) : Option (Query × BufrNode) :=
  queries.findSome? (fun q =>
    if selectorMatches v q then (table.getNodeForPath q.path).map (fun nd => (q, nd))
    else none)

/-- Method `Target::setPath` (declared in `Target.h`, not among the sources;
modelled from the spec §3/§4.2): stores the component chain and records the
sequence path — the node ids of the repeat-construct components. -/
def Target.setPath (t : Target) (p : List TargetComponent) : Target :=
  { t with
    path := p,
    seqPath := p.filterMap (fun c =>
      if isContainerTyp c.typ then some c.nodeId else none) }

/-- The per-name body of `findTargets` (lines 54–141): resolve the name's
queries against the table; on total failure emit the sentinel target
(node id 0, first query's string, one default dim path, export dim `{0}`);
on success build the root component followed by one component per query path
segment taken from `getPathNodes()` (entries past the node chain keep their
default values, matching the pre-sized C++ vector). -/
def buildTargetForName (table : SubsetTable) (v : SubsetVariant)
    (querySet : QuerySet) (name : String) : Target :=
  match resolveForName table v (querySet.queriesFor name) with
  | none =>
      { name := name,
        nodeIdx := 0,
        queryStr := ((querySet.queriesFor name).headD default).strRepr,
        dimPaths := [default],
        typeInfo := {},
        exportDimIdxs := [0] }
  | some (foundQuery, tableNode) =>
      let nodes := tableNode.pathNodes
      let rootComp : TargetComponent :=
        { queryComponent := foundQuery.subset,
          nodeId := table.rootIdx,
          parentNodeId := 0,
          parentDimensionNodeId := 0,
          typ := .Subset }
      let rest : List TargetComponent :=
        (List.range foundQuery.path.length).map (fun k =>
          if k + 1 < nodes.length then
            let nd := nodes.getD (k + 1) default
            { queryComponent := foundQuery.path.getD k default,
              nodeId := nd.nodeIdx,
              parentNodeId := nd.parentIdx,
              parentDimensionNodeId := nd.dimParentIdx,
              typ := nd.typ,
              fixedRepeatCount := nd.fixedRepCount }
          else default)
      let base : Target :=
        { name := name,
          queryStr := foundQuery.strRepr,
          typeInfo := tableNode.typeInfo,
          nodeIdx := tableNode.nodeIdx,
          longStrId := tableNode.mnemonic ++ "#" ++ toString tableNode.mnemonicCnt }
      base.setPath (rootComp :: rest)

/-- The target cache (`std::unordered_map<SubsetVariant, Targets>`), modelled
as an association list searched by key. -/
def lookupCache (cache : List (SubsetVariant × List Target))
    (v : SubsetVariant) : Option (List Target) :=
  (cache.find? (fun e => e.1 == v)).map (·.2)

/-- Method `QueryRunner::findTargets`: return the cached target list for the current
variant if present; otherwise build one target per requested name from a
fresh `SubsetTable` and insert the result into the cache.  Returns the
targets together with the updated cache state. -/
def findTargets (provider : Provider) (querySet : QuerySet)
    (cache : List (SubsetVariant × List Target)) :
    List Target × List (SubsetVariant × List Target) :=
  match lookupCache cache provider.variant with
  | some ts => (ts, cache)
  | none =>
      let targets := querySet.names.map
        (buildTargetForName provider.table provider.variant querySet)
      (targets, (provider.variant, targets) :: cache)

end QR

namespace GsiConverter

/-- The configuration values the converter `main` extracts from the YAML
file before the predictor-count check (lines 120–133). -/
structure Config where
  inputCoeffFile : String := ""
  outputFilename : String := ""
  predictors : List String := []
deriving DecidableEq, Inhabited

/-- Outcome of the converter past the check: the output file is created and
the bias object is built from it (`createFile` + `makeObsBiasObject`, whose
internals are external ioda/Eigen interfaces). -/
inductive Outcome where
  | created (outputFile : String) (coeffFile : String)
deriving DecidableEq

/-- The tail of the coefficient-converter `main` (lines 130–146): the
predictor count read from the output configuration is compared against
`gsi_npredictors` (a constant declared in `GsiAircraftBiasReader.h`, not
among the sources, hence a parameter here); a mismatch throws
`eckit::BadValue` with the message built at lines 137–139, otherwise the
output file is created and the bias object built. -/
def converterMain (gsiNpredictors : Nat) (config : Config) : Except String Outcome :=
  if config.predictors.length ≠ gsiNpredictors then
    .error ("Number of predictors specified in yaml must be " ++
      toString gsiNpredictors ++
      " (same as number of predictors in GSI aircraft bias file)")
  else
    .ok (.created config.outputFilename config.inputCoeffFile)

end GsiConverter

namespace RS

/-- A `DataField` as consumed by `ResultSet` (`ResultSet.h`): values stored
as flat doubles, the sequence-count tree, per-dimension path labels, export
dimension indices, the missing flag and the unit string.  `name` stands for
the target name the frame lookup `fieldIndexForNodeNamed` searches for. -/
structure DataField where
  name : String := ""
  data : List Int := []
  seqCounts : List (List Int) := []
  dimPaths : List String := []
  exportDims : List Int := []
  missing : Bool := false
  unit : String := ""
deriving DecidableEq, Inhabited

/-- One `DataFrame`: the ordered fields of one decoded message. -/
structure DataFrame where
  fields : List DataField := []
deriving DecidableEq, Inhabited

/-- Accessor `DataFrame::fieldAtIdx`. -/
def DataFrame.fieldAtIdx (df : DataFrame) (idx : Nat) : DataField :=
  df.fields.getD idx default

/-- Lookup `DataFrame::fieldIndexForNodeNamed` (declared in `ResultSet.h`, not among
the sources; modelled from the spec: the index of the requested field among
the frame's fields, which are ordered like the requested names). -/
def DataFrame.fieldIndexForNodeNamed (df : DataFrame) (name : String) : Nat :=
  df.fields.findIdx (fun f => f.name == name)

/-- State of `ResultSet` during export: the collected frames. -/
structure ResultSet where
  dataFrames : List DataFrame := []
deriving DecidableEq, Inhabited

/-- The running state of the per-frame scan loop of
`ResultSet::getRawValues` (lines 210–265). -/
structure ScanState where
  dimPaths : List String := []
  exportDims : List Int := []
  dimsList : List Int := []
  groupbyIdx : Int := 0
  totalGroupbyElements : Int := 0
deriving DecidableEq, Inhabited

/-- Lines 219–232 of `getRawValues`: grow `dimsList` with zeros to the length
of the frame's count tree, then take per-depth `std::max` with the maximum
count of each non-empty per-depth count list.  Written pointwise: index `i`
of the grown vector is updated exactly when `i < seqCounts.size()` and the
inner list is non-empty, and keeps its previous value (0 beyond the old
length) otherwise. -/
def updateDimsList (dl : List Int) (sc : List (List Int)) : List Int :=
  (List.range (max dl.length sc.length)).map (fun i =>
    if i < sc.length ∧ ¬(sc.getD i []).isEmpty
    then max (dl.getD i 0) (maxInt (sc.getD i []))
    else dl.getD i 0)

/-- The body of the frame loop of `getRawValues` (lines 210–265) for one
frame: refresh `dimPaths`/`exportDims` from any frame with a deeper dimension
path, fold the frame's counts into `dimsList`, and, when a group-by field is
requested, update `groupbyIdx` and either the flattened group element total
(group-by deeper than every target dimension) or the group-relative dim
paths. -/
def scanFrame (useGB : Bool) (tIdx gIdx : Nat) (st : ScanState)
    (frame : DataFrame) : ScanState :=
  let tf := frame.fieldAtIdx tIdx
  let dimPaths1 :=
    if ¬tf.dimPaths.isEmpty ∧ st.dimPaths.length < tf.dimPaths.length
    then tf.dimPaths else st.dimPaths
  let exportDims1 :=
    if ¬tf.dimPaths.isEmpty ∧ st.dimPaths.length < tf.dimPaths.length
    then tf.exportDims else st.exportDims
  let dimsList1 := updateDimsList st.dimsList tf.seqCounts
  if useGB then
    let gb := frame.fieldAtIdx gIdx
    let g1 : Int := max st.groupbyIdx (gb.seqCounts.length : Int)
    if g1 > (dimsList1.length : Int) then
      let elems : Int := gb.seqCounts.foldl
        (fun acc sc => if ¬sc.isEmpty then acc * maxInt sc else acc) 1
      { dimPaths := [gb.dimPaths.getLastD ""],
        exportDims := exportDims1,
        dimsList := dimsList1,
        groupbyIdx := g1,
        totalGroupbyElements := max st.totalGroupbyElements elems }
    else
      { dimPaths :=
          if gb.exportDims.isEmpty then []
          else tf.dimPaths.drop (gb.exportDims.length - 1),
        exportDims := exportDims1,
        dimsList := dimsList1,
        groupbyIdx := g1,
        totalGroupbyElements := st.totalGroupbyElements }
  else
    { dimPaths := dimPaths1,
      exportDims := exportDims1,
      dimsList := dimsList1,
      groupbyIdx := st.groupbyIdx,
      totalGroupbyElements := st.totalGroupbyElements }

/-- Lines 193–208 of `getRawValues`: before the loop, `dimPaths` and
`exportDims` are seeded from the target field of the first frame (when any
frame exists). -/
def initState (frames : List DataFrame) (tIdx : Nat) : ScanState :=
  match frames with
  | [] => {}
  | f0 :: _ =>
      { dimPaths := (f0.fieldAtIdx tIdx).dimPaths,
        exportDims := (f0.fieldAtIdx tIdx).exportDims }

/-- The whole frame scan of `getRawValues`. -/
def scanFrames (useGB : Bool) (tIdx gIdx : Nat)
    (frames : List DataFrame) : ScanState :=
  frames.foldl (scanFrame useGB tIdx gIdx) (initState frames tIdx)

/-- Lines 267–279 of `getRawValues`: every zero dimension is raised to 1 so
each dimension holds at least the missing value. -/
def raiseZeros (l : List Int) : List Int :=
  l.map (fun d => if d = 0 then 1 else d)

/-- Lines 281–327 of `getRawValues`: group-by placement.  Returns
`(dims, allDims, exportDims)` — the per-frame export dims, the dims handed to
`getRowsForField`, and the export dimension indices.  In the collapse branch
the C++ sizes `dims` to `dimsList.size() - groupbyIdx + 1` filled with 1,
accumulates the product of the leading `groupbyIdx` dimensions into
`dims[0]`, and copies dimension `dimIdx` to slot `dimIdx - groupbyIdx + 1`
for every `dimIdx ≥ groupbyIdx`; the copy loop is rendered as a fold of
writes over the shifted index range. -/
def placeDims (st : ScanState) : List Int × List Int × List Int :=
  let allDims := raiseZeros st.dimsList
  if st.groupbyIdx > 0 then
    if st.groupbyIdx > (st.dimsList.length : Int) then
      ([st.totalGroupbyElements], [st.totalGroupbyElements], [0])
    else
      let g := st.groupbyIdx.toNat
      let dims0 := List.replicate (st.dimsList.length - g + 1) (1 : Int)
      let dims1 := dims0.set 0 ((allDims.take g).foldl (· * ·) 1)
      let dims2 := (List.range (allDims.length - g)).foldl
        (fun d t => d.set (t + 1) (allDims.getD (g + t) 0)) dims1
      let ed1 := st.exportDims.map (fun e => e - (st.groupbyIdx - 1))
      let filtered := ed1.filter (fun e => e ≥ 0)
      let filtered2 :=
        if filtered.isEmpty ∨ filtered.headD 0 ≠ 0 then 0 :: filtered else filtered
      (dims2, allDims, filtered2)
  else
    (allDims, allDims, st.exportDims)

/-- Method `ResultSet::getRowsForField`: inflate one frame's flat values to the
global per-frame shape `dims`.  `idxs` starts as the identity destination
index for each source value; the insert table records, per depth and per
occurrence, how many padding slots that occurrence is short of the global
shape; the backwards inflation loop shifts every destination index past each
insertion point; the padded `output` buffer (pre-filled with the literal
`10.0e10`, i.e. `MissingValue`) receives the values, and is finally cut
into rows according to `groupbyIdx`.  Row filling loops that overwrite every
slot of a freshly sized container are rendered as index maps. -/
def getRowsForField (tf : DataField) (dims : List Int) (groupbyIdx : Int) :
    List (List Int) :=
  let maxCounts := tf.seqCounts.foldl (fun m sc => max m sc.length) 0
  let idxs : List Int := (List.range tf.data.length).map (fun i => (i : Int))
  let inserts0 : List (List Int) := List.replicate dims.length [0]
  let inserts := (List.range (min dims.length tf.seqCounts.length)).foldl
    (fun ins repIdx => ins.set repIdx
      ((tf.seqCounts.getD repIdx []).map (fun c =>
        prodInt (dims.drop repIdx) - c * prodInt (dims.drop (repIdx + 1)))))
    inserts0
  let idxs1 := ((List.range dims.length).reverse).foldl (fun cur dimIdx =>
    (List.range (inserts.getD dimIdx []).length).foldl (fun cur insertIdx =>
      let numInserts := (inserts.getD dimIdx []).getD insertIdx 0
      if numInserts > 0 then
        let p := prodInt (dims.drop dimIdx)
        let dataIdx := p * (insertIdx : Int) + p - numInserts - 1
        cur.map (fun ix => if ix > dataIdx then ix + numInserts else ix)
      else cur) cur) idxs
  let output := (idxs1.zip tf.data).foldl
    (fun out iv => out.set iv.1.toNat iv.2)
    (List.replicate (prodInt dims).toNat MissingValue)
  if groupbyIdx > 0 then
    if groupbyIdx > (tf.seqCounts.length : Int) then
      let numRows := (prodInt dims).toNat
      let rows0 := List.replicate (numRows * maxCounts) [MissingValue]
      (List.range (numRows * maxCounts)).map (fun i =>
        if i < numRows ∧ output.length ≠ 0
        then (rows0.getD i []).set 0 (output.getD 0 0)
        else rows0.getD i [])
    else
      let g := groupbyIdx.toNat
      let numRows := (prodInt (dims.take g)).toNat
      let rowDims := dims.drop g
      let numsPerRow := (prodInt rowDims).toNat
      (List.range numRows).map (fun i =>
        (List.range numsPerRow).map (fun j =>
          output.getD (i * numsPerRow + j) MissingValue))
  else
    [output]

/-- The target-field index `getRawValues` uses (line 195–197): looked up in
the first frame when frames exist, 0 otherwise. -/
def targetIdxOf (rs : ResultSet) (fieldName : String) : Nat :=
  if rs.dataFrames.length > 0
  then (rs.dataFrames.headD {}).fieldIndexForNodeNamed fieldName
  else 0

/-- The group-by-field index `getRawValues` uses (lines 199–202). -/
def groupIdxOf (rs : ResultSet) (groupByField : String) : Nat :=
  if rs.dataFrames.length > 0 ∧ groupByField ≠ ""
  then (rs.dataFrames.headD {}).fieldIndexForNodeNamed groupByField
  else 0

/-- The scan state `getRawValues` reaches after its frame loop. -/
def scanOf (rs : ResultSet) (fieldName groupByField : String) : ScanState :=
  scanFrames (groupByField ≠ "") (targetIdxOf rs fieldName)
    (groupIdxOf rs groupByField) rs.dataFrames

/-- The per-frame dims vector of `getRawValues` at the point of the
`dims[0]` access on line 329. -/
def dimsBeforeExport (rs : ResultSet) (fieldName groupByField : String) :
    List Int :=
  (placeDims (scanOf rs fieldName groupByField)).1

/-- Method `ResultSet::getRawValues`: returns `(data, dims, dimPaths)` — the dense
value buffer (pre-filled with the missing value, then scattered into from
each non-missing frame's inflated rows), the final dims (first dimension
converted to total rows over all frames, then sliced by the export dimension
indices when more than one frame was collected) and the dimension path
labels. -/
def getRawValues (rs : ResultSet) (fieldName groupByField : String) :
    List Int × List Int × List String :=
  let frames := rs.dataFrames
  let tIdx := targetIdxOf rs fieldName
  let st := scanOf rs fieldName groupByField
  let pd := placeDims st
  let dims := pd.1
  let allDims := pd.2.1
  let exportDims := pd.2.2
  let totalRows : Int := dims.getD 0 0 * (frames.length : Int)
  let rowLength : Int := prodInt (dims.drop 1)
  let data0 := List.replicate (totalRows * rowLength).toNat MissingValue
  let data := (frames.enum.foldl (fun cur fp =>
    let frameIdx := fp.1
    let frame := fp.2
    let tf := frame.fieldAtIdx tIdx
    if tf.missing then cur
    else
      let frameData := getRowsForField tf allDims st.groupbyIdx
      let dataRowIdx : Int := dims.getD 0 0 * (frameIdx : Int)
      frameData.enum.foldl (fun cur rp =>
        let rowIdx := rp.1
        let row := rp.2
        row.enum.foldl (fun cur vc =>
          cur.set (dataRowIdx * rowLength + (rowIdx : Int) * (row.length : Int)
            + (vc.1 : Int)).toNat vc.2) cur) cur) data0)
  let dims1 := dims.set 0 totalRows
  let dimsF := if frames.length > 1 then sliceInt dims1 exportDims else dims1
  (data, dimsF, st.dimPaths)

/-- Method `ResultSet::unit`: the unit string of the requested field in the first
collected frame. -/
def ResultSet.unit (rs : ResultSet) (fieldName : String) : String :=
  let f0 := rs.dataFrames.headD {}
  (f0.fieldAtIdx (f0.fieldIndexForNodeNamed fieldName)).unit

/-- Element type of the `DataObject` created by `ResultSet::get`. -/
inductive ObjectType where
  | strObj
  | uintObj
  | floatObj
deriving DecidableEq, Inhabited

/-- The array object assembled by `ResultSet::get`. -/
structure DataObjectModel where
  elemType : ObjectType
  data : List Int
  dims : List Int
  fieldName : String
  groupByFieldName : String
  dimPaths : List String
deriving DecidableEq, Inhabited

/-- Whitespace characters trimmed from dim path strings (line 156). -/
def isTrimWS (c : Char) : Bool :=
  c = ' ' ∨ c = '\t' ∨ c = '\n' ∨ c = '\r' ∨ c = '\x0c' ∨ c = '\x0b'

/-- The trim `path_str.erase(path_str.find_last_not_of(ws) + 1)`: drop trailing
whitespace. -/
def trimTrailing (s : String) : String :=
  String.mk ((s.toList.reverse.dropWhile isTrimWS).reverse)

/-- Method `ResultSet::get`: fetch the raw values, choose the element type of the
output array from the field's unit (text unit → string array; code/flag
table or numeric unit → unsigned integer array; anything else → float
array), and attach the field names and the trimmed dimension path labels
(one per dimension). -/
def ResultSet.get (rs : ResultSet) (fieldName groupByFieldName : String) :
    DataObjectModel :=
  let raw := getRawValues rs fieldName groupByFieldName
  let elemType :=
    if rs.unit fieldName = "CCITT IA5" then ObjectType.strObj
    else if rs.unit fieldName = "CODE TABLE" ∨ rs.unit fieldName = "FLAG TABLE"
        ∨ rs.unit fieldName = "NUMERIC" then ObjectType.uintObj
    else ObjectType.floatObj
  { elemType := elemType,
    data := raw.1,
    dims := raw.2.1,
    fieldName := fieldName,
    groupByFieldName := groupByFieldName,
    dimPaths := (List.range raw.2.1.length).map (fun dimIdx =>
      trimTrailing (raw.2.2.getD dimIdx "")) }

end RS

namespace QR

/-- The number of recursive visits one call of `_makeFilteredData` makes at
one depth: the number of count entries when the depth is unfiltered (the C++
loops over `layerCounts.size()`), and the total of the counts when it is
filtered (the C++ loops over every 1-based occurrence index of every
entry). -/
def visitFactor (lc : List Int) (lf : List Nat) : Nat :=
  if lf.isEmpty then lc.length else (lc.map Int.toNat).sum

/-- Total number of base-case visits (= source values consumed) of
`_makeFilteredData` over a counts/filters suffix: the product of the
per-depth visit factors. -/
def totalVisits : List (List Int) → List (List Nat) → Nat
  | [], _ => 1
  | lc :: ocRest, fs => visitFactor lc (fs.headD []) * totalVisits ocRest fs.tail

end QR

namespace RS

/-- Specification-side shape description (spec §4.4 step 1): the maximum
count observed for the target field at depth `d` across the frames — within
each frame the maximum of its per-depth count list, empty lists contributing
no observation. -/
def maxCountAtDepth (frames : List DataFrame) (tIdx d : Nat) : Int :=
  frames.foldl (fun acc fr =>
    let sc := (fr.fieldAtIdx tIdx).seqCounts
    if d < sc.length ∧ ¬(sc.getD d []).isEmpty
    then max acc (maxInt (sc.getD d [])) else acc) 0

/-- The number of repetition depths of the export shape: the largest count
tree depth over the frames. -/
def maxSeqLen (frames : List DataFrame) (tIdx : Nat) : Nat :=
  frames.foldl (fun m fr => max m (fr.fieldAtIdx tIdx).seqCounts.length) 0

end RS

/-! Concrete scenario data used by the witnesses and counterexamples. -/

/-- C1 counterexample message data: sequence node 21 occurs twice under the
subset, sequence node 22 occurs 3 and 4 times under those, and leaf node 23
carries the 7 decoded values. -/
def lookupC1 : Nat → QR.NodeData := fun id =>
  if id = 21 then { counts := [2] }
  else if id = 22 then { counts := [3, 4] }
  else if id = 23 then { counts := [3, 4], data := .nums [10, 20, 30, 40, 50, 60, 70] }
  else {}

def compC1subset : QR.TargetComponent := { nodeId := 1, typ := .Subset }

/-- The outer sequence component, filtered with the full occurrence set
`{1, 2}` present at its depth. -/
def compC1seq1 : QR.TargetComponent :=
  { nodeId := 21, typ := .DelayedRep, queryComponent := { filter := [1, 2] } }

def compC1seq2 : QR.TargetComponent := { nodeId := 22, typ := .DelayedRep }

def compC1leaf : QR.TargetComponent := { nodeId := 23, typ := .Number }

/-- C1 counterexample target: a filter above a deeper multi-count repeat. -/
def targetC1 : QR.Target :=
  { name := "f", nodeIdx := 23,
    path := [compC1subset, compC1seq1, compC1seq2, compC1leaf],
    seqPath := [21, 22] }

/-- C4 counterexample message data: sequence node 31 occurs 3 and 4 times,
leaf node 32 carries the 7 values. -/
def lookupC4 : Nat → QR.NodeData := fun id =>
  if id = 31 then { counts := [3, 4] }
  else if id = 32 then { counts := [3, 4], data := .nums [1, 2, 3, 4, 5, 6, 7] }
  else {}

def compC4subset : QR.TargetComponent := { nodeId := 2, typ := .Subset }

/-- The deepest sequence component filtered with the full occurrence index
set `{1, 2, 3, 4}` present at its depth (indices 1–3 occur in the first
occurrence, 1–4 in the second). -/
def compC4seqF : QR.TargetComponent :=
  { nodeId := 31, typ := .DelayedRep, queryComponent := { filter := [1, 2, 3, 4] } }

def compC4seqU : QR.TargetComponent := { nodeId := 31, typ := .DelayedRep }

def compC4leaf : QR.TargetComponent := { nodeId := 32, typ := .Number }

def targetC4F : QR.Target :=
  { name := "f", nodeIdx := 32,
    path := [compC4subset, compC4seqF, compC4leaf], seqPath := [31] }

def targetC4U : QR.Target :=
  { name := "f", nodeIdx := 32,
    path := [compC4subset, compC4seqU, compC4leaf], seqPath := [31] }

/-- C4 witness message data: sequence node 41 occurs twice with uniform
count 3, leaf node 42 carries the 6 values. -/
def lookupC4W : Nat → QR.NodeData := fun id =>
  if id = 41 then { counts := [3, 3] }
  else if id = 42 then { counts := [3, 3], data := .nums [1, 2, 3, 4, 5, 6] }
  else {}

def compC4Wsubset : QR.TargetComponent := { nodeId := 3, typ := .Subset }

def compC4Wlast : QR.TargetComponent :=
  { nodeId := 41, typ := .DelayedRep, queryComponent := { filter := [1, 2, 3] } }

def compC4Wleaf : QR.TargetComponent := { nodeId := 42, typ := .Number }

def targetC4W : QR.Target :=
  { name := "f", nodeIdx := 42,
    path := [compC4Wsubset, compC4Wlast, compC4Wleaf], seqPath := [41] }

/-- C5 witness: a sentinel target (node id 0, default non-long-string type
info). -/
def targetC5W : QR.Target := { name := "missingField" }

def lookupC5W : Nat → QR.NodeData := fun _ => {}

/-- One single-field frame for the ResultSet scenarios. -/
def frameOf (nm : String) (d : List Int) (sc : List (List Int)) : RS.DataFrame :=
  { fields := [{ name := nm, data := d, seqCounts := sc,
                 dimPaths := ["*/" ++ nm], exportDims := [0] }] }

/-- C2 witness: two frames whose field `y` reports 2 and 4 repetitions. -/
def rsC2W : RS.ResultSet :=
  { dataFrames := [frameOf "y" [1, 2] [[2]], frameOf "y" [3, 4, 5, 6] [[4]]] }

/-- C3 frames: per-depth counts `[3]`, `[5]`, `[2]`. -/
def rsC3 : RS.ResultSet :=
  { dataFrames := [frameOf "x" [1, 2, 3] [[3]],
                   frameOf "x" [4, 5, 6, 7, 8] [[5]],
                   frameOf "x" [9, 10] [[2]]] }

/-- C6 target field: counts `[2, 2]` (2 occurrences at depth 1, 2 values in
each). -/
def fieldC6t (d : List Int) : RS.DataField :=
  { name := "t", data := d, seqCounts := [[2], [2]],
    dimPaths := ["*/A", "*/A/B"], exportDims := [0, 1] }

/-- C6 group-by field: count 2 at depth 1. -/
def fieldC6g : RS.DataField :=
  { name := "g", data := [0, 0], seqCounts := [[2]],
    dimPaths := ["*/A"], exportDims := [0] }

def rsC6W : RS.ResultSet :=
  { dataFrames := [{ fields := [fieldC6t [1, 2, 3, 4], fieldC6g] },
                   { fields := [fieldC6t [5, 6, 7, 8], fieldC6g] }] }

/-- C8 witness: two result sets whose field `u` has the same unit but
entirely different values. -/
def rsC8a : RS.ResultSet :=
  { dataFrames := [{ fields := [{ name := "u", data := [1], seqCounts := [[1]],
                                  unit := "NUMERIC" }] }] }

def rsC8b : RS.ResultSet :=
  { dataFrames := [{ fields := [{ name := "u", data := [7, 8], seqCounts := [[2]],
                                  unit := "NUMERIC" }] }] }

/-- C9 witness: a result set with one collected frame. -/
def rsC9W : RS.ResultSet := { dataFrames := [frameOf "z" [5] [[1]]] }

/-- C9 witness: a result set with no collected frames. -/
def rsC9E : RS.ResultSet := { dataFrames := [] }

/-- C10 witness configurations. -/
def cfgC10Good : GsiConverter.Config :=
  { outputFilename := "out.nc", predictors := ["const", "spd", "tdot"] }

def cfgC10Bad : GsiConverter.Config :=
  { outputFilename := "out.nc", predictors := ["const"] }

/-! ### General lemmas about the filtered-collection recursion -/

/-- The length of the 1-based occurrence index list. -/
theorem oneTo_length (c : Int) : (QR.oneTo c).length = c.toNat := by
  simp [QR.oneTo]

/-- Offset advance of `iterApply` when every application advances by `t`. -/
theorem iterApply_offset {α : Type} (f : Nat × List α → Nat × List α) (t : Nat)
    (hf : ∀ st, (f st).1 = st.1 + t) :
    ∀ (n : Nat) (st : Nat × List α), (QR.iterApply f n st).1 = st.1 + n * t := by
  intro n
  induction n with
  | zero => intro st; simp [QR.iterApply]
  | succ k ih =>
      intro st
      have h1 : QR.iterApply f (k + 1) st = QR.iterApply f k (f st) := rfl
      rw [h1, ih, hf]
      ring

/-- Offset advance of a fold that applies `child` once per list element. -/
theorem foldl_child_offset {α : Type} (child : Bool → Nat × List α → Nat × List α)
    (t : Nat) (hf : ∀ sk st, (child sk st).1 = st.1 + t) (g : Nat → Bool) :
    ∀ (ks : List Nat) (st : Nat × List α),
      (ks.foldl (fun st2 count => child (g count) st2) st).1 = st.1 + ks.length * t := by
  intro ks
  induction ks with
  | nil => intro st; simp
  | cons k rest ih =>
      intro st
      rw [List.foldl_cons, ih, hf]
      simp [List.length_cons]
      ring

/-- Offset advance of the filtered-depth double loop: one `child` application
per 1-based occurrence index of every count entry. -/
theorem foldl_entries_offset {α : Type} (child : Bool → Nat × List α → Nat × List α)
    (t : Nat) (hf : ∀ sk st, (child sk st).1 = st.1 + t) (g : Nat → Bool) :
    ∀ (lc : List Int) (st : Nat × List α),
      (lc.foldl (fun st1 c => (QR.oneTo c).foldl
        (fun st2 count => child (g count) st2) st1) st).1
        = st.1 + (lc.map Int.toNat).sum * t := by
  intro lc
  induction lc with
  | nil => intro st; simp
  | cons c rest ih =>
      intro st
      rw [List.foldl_cons, ih, foldl_child_offset child t hf g, oneTo_length]
      simp [Nat.add_mul]
      ring

/-- Unfolding equation of `mfdAux` at a non-empty counts suffix. -/
theorem mfdAux_cons {α : Type} (src : List α) (dflt : α) (lc : List Int)
    (ocRest : List (List Int)) (fs : List (List Nat)) (skip : Bool)
    (st : Nat × List α) :
    QR.mfdAux src dflt (lc :: ocRest) fs skip st
      = if (fs.headD []).isEmpty
        then QR.iterApply (fun st2 => QR.mfdAux src dflt ocRest fs.tail skip st2)
          lc.length st
        else lc.foldl (fun st1 c => (QR.oneTo c).foldl (fun st2 count =>
            QR.mfdAux src dflt ocRest fs.tail
              (skip || !((fs.headD []).contains count)) st2) st1) st := rfl

/-- Unfolding equation of `totalVisits` at a non-empty suffix. -/
theorem totalVisits_cons (lc : List Int) (ocRest : List (List Int))
    (fs : List (List Nat)) :
    QR.totalVisits (lc :: ocRest) fs
      = QR.visitFactor lc (fs.headD []) * QR.totalVisits ocRest fs.tail := rfl

/-- C1 (amended).  `_makeFilteredData` advances the source offset exactly
once per base-case (leaf) visit whether or not the leaf is skipped, and the
number of leaf visits is the product, over the depths of the counts vector it
is driven with, of the number of count entries at an unfiltered depth and the
total of the counts at a filtered depth (`totalVisits`).  Since
`collectData` passes `{1}` at every unfiltered depth, the total consumption
equals the unfiltered leaf count exactly when the filtered depths' total
counts multiply to it — e.g. when only the deepest sequence component is
filtered — and not in general. -/
theorem c1_source_consumption {α : Type} (src : List α) (dflt : α) :
    ∀ (oc : List (List Int)) (fs : List (List Nat)) (skip : Bool)
      (st : Nat × List α),
      (QR.mfdAux src dflt oc fs skip st).1 = st.1 + QR.totalVisits oc fs := by
  intro oc
  induction oc with
  | nil =>
      intro fs skip st
      obtain ⟨o, a⟩ := st
      simp [QR.mfdAux, QR.totalVisits]
  | cons lc ocRest ih =>
      intro fs skip st
      have hchild : ∀ (sk : Bool) (st2 : Nat × List α),
          (QR.mfdAux src dflt ocRest fs.tail sk st2).1
            = st2.1 + QR.totalVisits ocRest fs.tail := fun sk st2 => ih fs.tail sk st2
      rw [mfdAux_cons, totalVisits_cons, QR.visitFactor]
      by_cases hF : (fs.headD []).isEmpty
      · rw [if_pos hF, if_pos hF, iterApply_offset _ (QR.totalVisits ocRest fs.tail)
          (fun st2 => hchild skip st2)]
      · rw [if_neg hF, if_neg hF, foldl_entries_offset
          (fun sk st2 => QR.mfdAux src dflt ocRest fs.tail sk st2)
          (QR.totalVisits ocRest fs.tail) hchild
          (fun count => skip || !((fs.headD []).contains count))]

/-- C1 counterexample.  For the target with a full-set filter `{1, 2}` on the
outer sequence (node 21, counts `[2]`) above an unfiltered inner sequence
(node 22, counts `[3, 4]`), the driven `_makeFilteredData` advances the
source offset only 2 times although the unfiltered leaf count (the sum of the
deepest-level counts) is 7 and the source buffer holds 7 values: 5 source
values are skipped over even though the filter keeps every occurrence at its
depth, refuting the claimed equality of consumption and unfiltered leaf
count. -/
theorem c1_counterexample :
    (QR.mfdAux ([10, 20, 30, 40, 50, 60, 70] : List Int) 0
        [[1], [2], [1]] [[], [1, 2], []] false (0, [])).1 = 2 ∧
    (QR.collectDataField lookupC1 targetC1).data = QR.DataVector.nums [10, 20] ∧
    sumInt (lookupC1 22).counts = 7 ∧
    (lookupC1 23).data.size = 7 ∧
    (2 : Nat) ≠ 7 := by
  refine ⟨by decide, by decide, by decide, by decide, by decide⟩

/-- C3.  Three frames with per-depth counts `[3]`, `[5]`, `[2]` and no
group-by: the per-frame export dimension is 5, frame 1's row holds its real
values at indices 0–2 and the sentinel at 3–4, frame 2's row is full, and
frame 3's row holds its real values at indices 0–1 and the sentinel at
2–4. -/
theorem c3_padding_concrete :
    (RS.placeDims (RS.scanOf rsC3 "x" "")).1 = [5] ∧
    RS.getRawValues rsC3 "x" "" =
      ([1, 2, 3, MissingValue, MissingValue,
        4, 5, 6, 7, 8,
        9, 10, MissingValue, MissingValue, MissingValue], [15], ["*/x"]) := by
  refine ⟨by decide, by decide⟩

/-- C5.  A sentinel target (node id 0, non-long-string type) yields, in every
message, a `DataField` holding exactly one missing value with sequence-count
tree `[[1]]`. -/
theorem c5_sentinel_field (lookup : Nat → QR.NodeData) (targ : QR.Target)
    (h0 : targ.nodeIdx = 0) (hls : targ.typeInfo.isLongString = false) :
    QR.collectDataField lookup targ =
      { data := QR.DataVector.nums [MissingValue], seqCounts := [[1]] } := by
  simp [QR.collectDataField, h0, hls]

/-- Witness for C5: the sentinel target of an unresolvable field. -/
theorem c5_sentinel_field_witness :
    targetC5W.nodeIdx = 0 ∧ targetC5W.typeInfo.isLongString = false ∧
    QR.collectDataField lookupC5W targetC5W =
      { data := QR.DataVector.nums [MissingValue], seqCounts := [[1]] } :=
  ⟨by decide, by decide, c5_sentinel_field lookupC5W targetC5W (by decide) (by decide)⟩

/-- C7.  Resolving the target list a second time for the same variant — the
cache-hit path of `findTargets` — returns exactly the targets the first
resolution built (and leaves the cache unchanged), for every provider, query
set and starting cache. -/
theorem c7_find_targets_cache_consistent (p : QR.Provider) (qs : QR.QuerySet)
    (cache : List (QR.SubsetVariant × List QR.Target)) :
    QR.findTargets p qs (QR.findTargets p qs cache).2 = QR.findTargets p qs cache := by
  unfold QR.findTargets
  cases h : QR.lookupCache cache p.variant with
  | some ts => simp [h]
  | none =>
      simp only [h]
      have h2 : QR.lookupCache
          ((p.variant, qs.names.map
            (QR.buildTargetForName p.table p.variant qs)) :: cache) p.variant
          = some (qs.names.map (QR.buildTargetForName p.table p.variant qs)) := by
        simp [QR.lookupCache, List.find?]
      simp [h2]

/-- C8.  The element type of the array object built by `ResultSet::get` is a
function of the field's unit classification alone: `CCITT IA5` yields a
string array, `CODE TABLE`/`FLAG TABLE`/`NUMERIC` an unsigned integer array,
anything else a float array — independent of the collected values. -/
theorem c8_element_type_from_unit (rs1 rs2 : RS.ResultSet) (f g1 g2 : String)
    (h : rs1.unit f = rs2.unit f) :
    (rs1.get f g1).elemType = (rs2.get f g2).elemType ∧
    (rs1.get f g1).elemType =
      (if rs1.unit f = "CCITT IA5" then RS.ObjectType.strObj
       else if rs1.unit f = "CODE TABLE" ∨ rs1.unit f = "FLAG TABLE"
           ∨ rs1.unit f = "NUMERIC" then RS.ObjectType.uintObj
       else RS.ObjectType.floatObj) := by
  constructor
  · simp only [RS.ResultSet.get, h]
  · simp only [RS.ResultSet.get]

/-- Witness for C8: two result sets agreeing on the unit of field `u` but
holding different values get the same (integer) element type. -/
theorem c8_element_type_witness :
    rsC8a.unit "u" = rsC8b.unit "u" ∧
    (rsC8a.get "u" "").elemType = (rsC8b.get "u" "").elemType ∧
    (rsC8a.get "u" "").elemType = RS.ObjectType.uintObj :=
  ⟨by decide,
   (c8_element_type_from_unit rsC8a rsC8b "u" "" "" (by decide)).1,
   by decide⟩

/-- C10.  The converter `main` raises `eckit::BadValue` exactly when the
number of predictor names read from the output configuration differs from
`gsi_npredictors`; when they agree it proceeds to create the output file and
build the bias object without raising on that check. -/
theorem c10_predictor_count_check (n : Nat) (cfg : GsiConverter.Config) :
    ((∃ e, GsiConverter.converterMain n cfg = .error e) ↔ cfg.predictors.length ≠ n) ∧
    (cfg.predictors.length = n →
      GsiConverter.converterMain n cfg =
        .ok (.created cfg.outputFilename cfg.inputCoeffFile)) := by
  unfold GsiConverter.converterMain
  by_cases h : cfg.predictors.length = n
  · simp [h]
  · simp [h]

/-- Witness for C10 with `gsi_npredictors = 3`: one predictor instead of 3
raises, exactly 3 proceed. -/
theorem c10_predictor_count_witness :
    (∃ e, GsiConverter.converterMain 3 cfgC10Bad = .error e) ∧
    GsiConverter.converterMain 3 cfgC10Good =
      .ok (.created cfgC10Good.outputFilename cfgC10Good.inputCoeffFile) :=
  ⟨(c10_predictor_count_check 3 cfgC10Bad).1.mpr (by decide),
   (c10_predictor_count_check 3 cfgC10Good).2 (by decide)⟩

/-! ### Full-set filtering (C4) -/

/-- A trivial unfiltered depth (one count entry) recurses exactly once, per
the C++ loop over `layerCounts.size()`. -/
theorem mfdAux_trivial_level {α : Type} (src : List α) (dflt : α)
    (ocRest : List (List Int)) (fsRest : List (List Nat)) (skip : Bool)
    (st : Nat × List α) :
    QR.mfdAux src dflt ([1] :: ocRest) ([] :: fsRest) skip st
      = QR.mfdAux src dflt ocRest fsRest skip st := by
  rw [mfdAux_cons]
  simp [QR.iterApply]

/-- Folding the base case over kept occurrence indices appends the next
source values in order and advances the offset once per index. -/
theorem mfd_base_run {α : Type} (src : List α) (dflt : α) (F : List Nat) :
    ∀ (ks : List Nat), (∀ k ∈ ks, F.contains k = true) →
    ∀ (o : Nat) (a : List α), o + ks.length ≤ src.length →
      ks.foldl (fun st2 count =>
          QR.mfdAux src dflt [] [] (false || !(F.contains count)) st2) (o, a)
        = (o + ks.length, a ++ (src.drop o).take ks.length) := by
  intro ks
  induction ks with
  | nil => intro _ o a _; simp
  | cons k rest ih =>
      intro hks o a hlen
      have hk : F.contains k = true := hks k (by simp)
      have ho : o < src.length := by
        simp only [List.length_cons] at hlen; omega
      rw [List.foldl_cons]
      have hbase : QR.mfdAux src dflt [] [] (false || !(F.contains k)) (o, a)
          = (o + 1, a ++ [src.getD o dflt]) := by
        rw [hk]
        simp [QR.mfdAux]
      rw [hbase, ih (fun x hx => hks x (by simp [hx])) (o + 1) _
        (by simp only [List.length_cons] at hlen ⊢; omega)]
      have hdrop : src.drop o = src[o] :: src.drop (o + 1) :=
        List.drop_eq_getElem_cons ho
      have hgetD : src.getD o dflt = src[o] := List.getD_eq_getElem src dflt ho
      rw [List.length_cons, hdrop, List.take_succ_cons, hgetD]
      simp [List.append_assoc]
      omega

/-- One filtered depth with uniform counts `c` and the full occurrence
filter `[1, …, c]` keeps and consumes exactly the next `m · c` source
values. -/
theorem mfd_keepall_level {α : Type} (src : List α) (dflt : α) (c : Nat)
    (hc : 1 ≤ c) :
    ∀ (m o : Nat) (a : List α), o + m * c ≤ src.length →
      QR.mfdAux src dflt [List.replicate m ((c : Nat) : Int)]
          [QR.oneTo ((c : Nat) : Int)] false (o, a)
        = (o + m * c, a ++ (src.drop o).take (m * c)) := by
  have hlen : (QR.oneTo ((c : Nat) : Int)).length = c := by
    rw [oneTo_length]; simp
  have hFne : (QR.oneTo ((c : Nat) : Int)).isEmpty = false := by
    have h1 : (QR.oneTo ((c : Nat) : Int)).length ≠ 0 := by omega
    cases hE : (QR.oneTo ((c : Nat) : Int)).isEmpty
    · rfl
    · exact absurd (by simp [List.isEmpty_iff.mp hE]) h1
  intro m
  induction m with
  | zero =>
      intro o a _
      rw [mfdAux_cons, if_neg (by simp [hFne])]
      simp
  | succ mm ih =>
      intro o a hbound
      have hb1 : o + c + mm * c ≤ src.length := by
        have h2 : (mm + 1) * c = mm * c + c := by ring
        rw [h2] at hbound; omega
      rw [mfdAux_cons, if_neg (by simp [hFne]), List.replicate_succ,
        List.foldl_cons]
      have hinner := mfd_base_run src dflt (QR.oneTo ((c : Nat) : Int))
        (QR.oneTo ((c : Nat) : Int))
        (fun x hx => List.elem_eq_true_of_mem hx) o a (by omega)
      simp only [List.headD_cons, List.tail_cons] at *
      rw [hinner, hlen]
      have hfold : (List.replicate mm ((c : Nat) : Int)).foldl
          (fun st1 cv => (QR.oneTo cv).foldl (fun st2 count =>
            QR.mfdAux src dflt [] []
              (false || !((QR.oneTo ((c : Nat) : Int)).contains count)) st2) st1)
          (o + c, a ++ (src.drop o).take c)
          = QR.mfdAux src dflt [List.replicate mm ((c : Nat) : Int)]
              [QR.oneTo ((c : Nat) : Int)] false
              (o + c, a ++ (src.drop o).take c) := by
        rw [mfdAux_cons, if_neg (by simp [hFne])]
        simp only [List.headD_cons, List.tail_cons]
      rw [hfold, ih (o + c) (a ++ (src.drop o).take c) hb1]
      have hoff : o + c + mm * c = o + (mm + 1) * c := by ring
      have htake : (src.drop o).take c ++ (src.drop (o + c)).take (mm * c)
          = (src.drop o).take ((mm + 1) * c) := by
        have h3 : (mm + 1) * c = c + mm * c := by ring
        rw [h3, List.take_add]
        have h4 : (src.drop o).drop c = src.drop (o + c) := by
          rw [List.drop_drop]
        rw [h4]
      rw [List.append_assoc, htake, hoff]

/-- Full keep across any number of trivial upper depths followed by the
full-filtered deepest depth: the source buffer is reproduced verbatim. -/
theorem mfd_keepall {α : Type} (src : List α) (dflt : α) (c : Nat)
    (hc : 1 ≤ c) (m : Nat) (hsrc : m * c = src.length) :
    ∀ t : Nat,
      (QR.mfdAux src dflt
        (List.replicate t [1] ++ [List.replicate m ((c : Nat) : Int)])
        (List.replicate t [] ++ [QR.oneTo ((c : Nat) : Int)]) false (0, [])).2
      = src := by
  intro t
  induction t with
  | zero =>
      simp only [List.replicate_zero, List.nil_append]
      rw [mfd_keepall_level src dflt c hc m 0 [] (by omega)]
      simp [hsrc]
  | succ tt ih =>
      rw [List.replicate_succ, List.replicate_succ, List.cons_append,
        List.cons_append, mfdAux_trivial_level]
      exact ih

/-- The full occurrence index list `[1, …, c]` is non-empty for `c ≥ 1`. -/
theorem oneTo_isEmpty_false (c : Nat) (hc : 1 ≤ c) :
    (QR.oneTo ((c : Nat) : Int)).isEmpty = false := by
  have h1 : (QR.oneTo ((c : Nat) : Int)).length = c := by
    rw [oneTo_length]; simp
  cases hE : (QR.oneTo ((c : Nat) : Int)).isEmpty
  · rfl
  · exact absurd (by simp [List.isEmpty_iff.mp hE] : (QR.oneTo ((c : Nat) : Int)).length = 0)
      (by omega)

/-- C4 (amended).  When exactly the deepest sequence component of a target
carries a filter, that filter is the full occurrence index set `[1, …, c]`,
and the counts at that depth are uniformly `c` (so the full index set is
exactly the set of indices present at every occurrence), `collectData`
produces a `DataField` — value sequence and count tree — identical to the
one for the same target with the filter removed.  (The unamended claim, for
arbitrary full-set filters at every depth, is refuted by
`c4_full_filter_counterexample`: non-uniform counts flatten the count tree
to the filter size, and full filters above deeper repeats change the value
sequence.) -/
theorem c4_full_filter_identity
    (lookup : Nat → QR.NodeData) (targ : QR.Target)
    (subsetComp lastComp leafComp : QR.TargetComponent)
    (pre : List QR.TargetComponent) (c m : Nat)
    (hc : 1 ≤ c)
    (hnz : targ.nodeIdx ≠ 0)
    (hpath : targ.path = subsetComp :: pre ++ [lastComp, leafComp])
    (hsp : targ.seqPath.length = pre.length + 1)
    (hpre : ∀ comp ∈ pre, comp.queryComponent.filter = [])
    (hlast : lastComp.queryComponent.filter = QR.oneTo ((c : Nat) : Int))
    (hcounts : (lookup lastComp.nodeId).counts = List.replicate m ((c : Nat) : Int))
    (hsize : (lookup leafComp.nodeId).data.size = m * c) :
    QR.collectDataField lookup targ
      = QR.collectDataField lookup
          { targ with path := subsetComp :: pre ++ [QR.dropFilter lastComp, leafComp] } := by
  set targ2 : QR.Target :=
    { targ with path := subsetComp :: pre ++ [QR.dropFilter lastComp, leafComp] } with htarg2
  have hFne : (QR.oneTo ((c : Nat) : Int)).isEmpty = false := oneTo_isEmpty_false c hc
  have hsp2 : targ2.seqPath = targ.seqPath := rfl
  have hnz2 : ¬targ2.nodeIdx = 0 := hnz
  have hgetL : ∀ k, k < pre.length → targ.path.getD (k + 1) default = pre.getD k default := by
    intro k hk
    rw [hpath]
    rw [List.getD_append (subsetComp :: pre) [lastComp, leafComp] default (k + 1)
      (by simp [List.length_cons]; omega)]
    rw [List.getD_cons_succ]
  have hgetR : ∀ k, k < pre.length → targ2.path.getD (k + 1) default = pre.getD k default := by
    intro k hk
    show ((subsetComp :: pre) ++ [QR.dropFilter lastComp, leafComp]).getD (k + 1) default
      = pre.getD k default
    rw [List.getD_append (subsetComp :: pre) [QR.dropFilter lastComp, leafComp] default (k + 1)
      (by simp [List.length_cons]; omega)]
    rw [List.getD_cons_succ]
  have hgetLp : targ.path.getD (pre.length + 1) default = lastComp := by
    rw [hpath]
    rw [List.getD_append_right (subsetComp :: pre) [lastComp, leafComp] default
      (pre.length + 1) (by simp)]
    simp
  have hgetRp : targ2.path.getD (pre.length + 1) default = QR.dropFilter lastComp := by
    show ((subsetComp :: pre) ++ [QR.dropFilter lastComp, leafComp]).getD (pre.length + 1) default
      = QR.dropFilter lastComp
    rw [List.getD_append_right (subsetComp :: pre) [QR.dropFilter lastComp, leafComp] default
      (pre.length + 1) (by simp)]
    simp
  have hlastL : targ.path.getLastD default = leafComp := by
    rw [hpath]
    have h1 : subsetComp :: pre ++ [lastComp, leafComp]
        = (subsetComp :: pre ++ [lastComp]) ++ [leafComp] := by simp
    rw [h1, List.getLastD_concat]
  have hlastR : targ2.path.getLastD default = leafComp := by
    show (subsetComp :: pre ++ [QR.dropFilter lastComp, leafComp]).getLastD default = leafComp
    have h1 : subsetComp :: pre ++ [QR.dropFilter lastComp, leafComp]
        = (subsetComp :: pre ++ [QR.dropFilter lastComp]) ++ [leafComp] := by simp
    rw [h1, List.getLastD_concat]
  have hmemPre : ∀ k, k < pre.length → pre.getD k default ∈ pre := by
    intro k hk
    rw [List.getD_eq_getElem pre default hk]
    exact List.getElem_mem hk
  have hmax : max ((c : Nat) : Int) 1 = ((c : Nat) : Int) :=
    max_eq_left (by exact_mod_cast hc)
  have hSCeq : QR.collectSeqCounts lookup targ = QR.collectSeqCounts lookup targ2 := by
    unfold QR.collectSeqCounts
    rw [hsp2]
    congr 1
    apply List.map_congr_left
    intro k hk
    rw [List.mem_range, hsp] at hk
    simp only []
    rcases Nat.lt_succ_iff_lt_or_eq.mp hk with hk2 | hk2
    · rw [hgetL k hk2, hgetR k hk2]
    · subst hk2
      rw [hgetLp, hgetRp]
      have hfu : (QR.dropFilter lastComp).queryComponent.filter = [] := rfl
      have hnid : (QR.dropFilter lastComp).nodeId = lastComp.nodeId := rfl
      rw [hlast, hfu, hnid, hFne]
      simp only [Bool.false_eq_true, if_false, List.isEmpty_nil, if_true]
      rw [hcounts, List.map_replicate, oneTo_length]
      simp [hmax]
  have hHFL : QR.collectHasFilter targ = true := by
    unfold QR.collectHasFilter
    rw [List.any_eq_true]
    refine ⟨pre.length, ?_, ?_⟩
    · rw [List.mem_range, hsp]; omega
    · rw [hgetLp, hlast, hFne]; rfl
  have hHFR : QR.collectHasFilter targ2 = false := by
    unfold QR.collectHasFilter
    rw [List.any_eq_false]
    intro k hk
    rw [hsp2, List.mem_range, hsp] at hk
    rcases Nat.lt_succ_iff_lt_or_eq.mp hk with hk2 | hk2
    · rw [hgetR k hk2, hpre (pre.getD k default) (hmemPre k hk2)]
      simp
    · subst hk2
      rw [hgetRp]
      simp [QR.dropFilter]
  have hOCeq : QR.collectOrigCounts lookup targ
      = List.replicate (pre.length + 1) [1] ++ [List.replicate m ((c : Nat) : Int)] := by
    unfold QR.collectOrigCounts
    rw [hsp, List.range_succ, List.map_append]
    have h1 : (List.range pre.length).map (fun pathIdx =>
        let pc := targ.path.getD (pathIdx + 1) default
        if pc.queryComponent.filter.isEmpty then ([1] : List Int)
        else (lookup pc.nodeId).counts)
        = List.replicate pre.length [1] := by
      have h2 : ∀ k ∈ List.range pre.length,
          (let pc := targ.path.getD (k + 1) default
           if pc.queryComponent.filter.isEmpty then ([1] : List Int)
           else (lookup pc.nodeId).counts) = [1] := by
        intro k hk
        rw [List.mem_range] at hk
        simp only []
        rw [hgetL k hk, hpre (pre.getD k default) (hmemPre k hk)]
        simp
      rw [List.map_congr_left h2, List.map_const', List.length_range]
    rw [h1]
    have h3 : (List.map (fun pathIdx =>
        let pc := targ.path.getD (pathIdx + 1) default
        if pc.queryComponent.filter.isEmpty then ([1] : List Int)
        else (lookup pc.nodeId).counts) [pre.length])
        = [List.replicate m ((c : Nat) : Int)] := by
      simp only [List.map_cons, List.map_nil]
      rw [hgetLp, hlast]
      rw [if_neg (by simp [hFne]), hcounts]
    rw [h3, List.replicate_succ, List.cons_append]
  have hFeq : QR.collectFilters targ
      = List.replicate (pre.length + 1) [] ++ [QR.oneTo ((c : Nat) : Int)] := by
    unfold QR.collectFilters
    rw [hsp, List.range_succ, List.map_append]
    have h1 : (List.range pre.length).map (fun pathIdx =>
        (targ.path.getD (pathIdx + 1) default).queryComponent.filter)
        = List.replicate pre.length [] := by
      have h2 : ∀ k ∈ List.range pre.length,
          (targ.path.getD (k + 1) default).queryComponent.filter = [] := by
        intro k hk
        rw [List.mem_range] at hk
        rw [hgetL k hk]
        exact hpre (pre.getD k default) (hmemPre k hk)
      rw [List.map_congr_left h2, List.map_const', List.length_range]
    rw [h1]
    have h3 : (List.map (fun pathIdx =>
        (targ.path.getD (pathIdx + 1) default).queryComponent.filter) [pre.length])
        = [QR.oneTo ((c : Nat) : Int)] := by
      simp only [List.map_cons, List.map_nil]
      rw [hgetLp, hlast]
    rw [h3, List.replicate_succ, List.cons_append]
  unfold QR.collectDataField
  rw [if_neg hnz, if_neg hnz2, hHFL, hHFR]
  simp only [if_true, if_false, Bool.false_eq_true]
  rw [hlastL, hlastR, hSCeq, hOCeq, hFeq]
  congr 1
  cases hld : (lookup leafComp.nodeId).data with
  | nums xs =>
      have hs : m * c = xs.length := by
        rw [hld] at hsize
        exact hsize.symm
      simp only [QR.makeFilteredData]
      rw [mfd_keepall xs 0 c hc m hs (pre.length + 1)]
  | strs xs =>
      have hs : m * c = xs.length := by
        rw [hld] at hsize
        exact hsize.symm
      simp only [QR.makeFilteredData]
      rw [mfd_keepall xs "" c hc m hs (pre.length + 1)]

/-- C4 counterexample.  For a target whose deepest sequence component (node
31, counts `[3, 4]`) carries the full set `{1, 2, 3, 4}` of occurrence
indices present at that depth, `collectData` produces a different `DataField`
than the unfiltered target: the filtered count tree is flattened to
`[[1], [4, 4]]` while the unfiltered one is `[[1], [3, 4]]` — so the claimed
identity of filtered and unfiltered collection fails. -/
theorem c4_full_filter_counterexample :
    QR.collectDataField lookupC4 targetC4F ≠ QR.collectDataField lookupC4 targetC4U ∧
    (QR.collectDataField lookupC4 targetC4F).seqCounts = [[1], [4, 4]] ∧
    (QR.collectDataField lookupC4 targetC4U).seqCounts = [[1], [3, 4]] ∧
    (QR.collectDataField lookupC4 targetC4F).data
      = (QR.collectDataField lookupC4 targetC4U).data := by
  refine ⟨by decide, by decide, by decide, by decide⟩

/-- Witness for the amended C4 at uniform counts `[3, 3]`, full filter
`[1, 2, 3]` on the deepest sequence component. -/
theorem c4_full_filter_identity_witness :
    compC4Wlast.queryComponent.filter = QR.oneTo ((3 : Nat) : Int) ∧
    (lookupC4W 41).counts = List.replicate 2 ((3 : Nat) : Int) ∧
    (lookupC4W 42).data.size = 2 * 3 ∧
    QR.collectDataField lookupC4W targetC4W
      = QR.collectDataField lookupC4W
          { targetC4W with
            path := compC4Wsubset :: [] ++ [QR.dropFilter compC4Wlast, compC4Wleaf] } :=
  ⟨by decide, by decide, by decide,
   c4_full_filter_identity lookupC4W targetC4W compC4Wsubset compC4Wlast compC4Wleaf
     [] 3 2 (by decide) (by decide) (by decide) (by decide) (by simp)
     (by decide) (by decide) (by decide)⟩

/-! ### Export shape inference (C2, C6, C9) -/

/-- Length of the grown-and-updated dims list. -/
theorem updateDimsList_length (dl : List Int) (sc : List (List Int)) :
    (RS.updateDimsList dl sc).length = max dl.length sc.length := by
  simp [RS.updateDimsList]

/-- Pointwise value of the grown-and-updated dims list. -/
theorem updateDimsList_getD (dl : List Int) (sc : List (List Int)) (d : Nat) :
    (RS.updateDimsList dl sc).getD d 0 =
      if d < sc.length ∧ ¬(sc.getD d []).isEmpty
      then max (dl.getD d 0) (maxInt (sc.getD d [])) else dl.getD d 0 := by
  by_cases h : d < max dl.length sc.length
  · rw [RS.updateDimsList, List.getD_eq_getElem _ 0 (by simpa using h)]
    simp only [List.getElem_map, List.getElem_range]
  · have hsc : ¬ d < sc.length := by omega
    have hdl : dl.length ≤ d := by omega
    rw [RS.updateDimsList, List.getD_eq_default _ _ (by simpa using h)]
    rw [if_neg (by tauto), List.getD_eq_default _ _ hdl]

/-- Every branch of the frame-scan body updates `dimsList` the same way. -/
theorem scanFrame_dimsList (ugb : Bool) (ti gi : Nat) (st : RS.ScanState)
    (fr : RS.DataFrame) :
    (RS.scanFrame ugb ti gi st fr).dimsList
      = RS.updateDimsList st.dimsList (fr.fieldAtIdx ti).seqCounts := by
  cases ugb
  · rfl
  · unfold RS.scanFrame
    simp only [if_true]
    split
    · rfl
    · rfl

/-- The scan fold acts on `dimsList` as a fold of `updateDimsList`. -/
theorem scan_foldl_dimsList (ugb : Bool) (ti gi : Nat) :
    ∀ (frames : List RS.DataFrame) (st : RS.ScanState),
      (frames.foldl (RS.scanFrame ugb ti gi) st).dimsList
        = frames.foldl (fun dl fr =>
            RS.updateDimsList dl (fr.fieldAtIdx ti).seqCounts) st.dimsList := by
  intro frames
  induction frames with
  | nil => intro st; rfl
  | cons f rest ih =>
      intro st
      rw [List.foldl_cons, List.foldl_cons, ih, scanFrame_dimsList]

/-- Length of the folded dims list: the running maximum of the per-frame
count tree depths. -/
theorem foldl_updateDimsList_length (ti : Nat) :
    ∀ (frames : List RS.DataFrame) (dl : List Int),
      (frames.foldl (fun dl fr =>
          RS.updateDimsList dl (fr.fieldAtIdx ti).seqCounts) dl).length
        = frames.foldl (fun n fr =>
            max n (fr.fieldAtIdx ti).seqCounts.length) dl.length := by
  intro frames
  induction frames with
  | nil => intro dl; rfl
  | cons f rest ih =>
      intro dl
      rw [List.foldl_cons, List.foldl_cons, ih, updateDimsList_length]

/-- Pointwise value of the folded dims list: the running maximum of the
observed per-depth counts. -/
theorem foldl_updateDimsList_getD (ti d : Nat) :
    ∀ (frames : List RS.DataFrame) (dl : List Int),
      (frames.foldl (fun dl fr =>
          RS.updateDimsList dl (fr.fieldAtIdx ti).seqCounts) dl).getD d 0
        = frames.foldl (fun acc fr =>
            let sc := (fr.fieldAtIdx ti).seqCounts
            if d < sc.length ∧ ¬(sc.getD d []).isEmpty
            then max acc (maxInt (sc.getD d [])) else acc) (dl.getD d 0) := by
  intro frames
  induction frames with
  | nil => intro dl; rfl
  | cons f rest ih =>
      intro dl
      rw [List.foldl_cons, List.foldl_cons, ih, updateDimsList_getD]

/-- The observed-count fold never drops below a non-negative start. -/
theorem maxCount_fold_nonneg (ti d : Nat) :
    ∀ (frames : List RS.DataFrame) (v : Int), 0 ≤ v →
      0 ≤ frames.foldl (fun acc fr =>
        let sc := (fr.fieldAtIdx ti).seqCounts
        if d < sc.length ∧ ¬(sc.getD d []).isEmpty
        then max acc (maxInt (sc.getD d [])) else acc) v := by
  intro frames
  induction frames with
  | nil => intro v hv; simpa
  | cons f rest ih =>
      intro v hv
      rw [List.foldl_cons]
      apply ih
      by_cases h : d < (f.fieldAtIdx ti).seqCounts.length
          ∧ ¬((f.fieldAtIdx ti).seqCounts.getD d []).isEmpty
      · simp only [if_pos h]
        exact le_trans hv (le_max_left _ _)
      · simp only [if_neg h]
        exact hv

/-- The scan starts from an empty dims list. -/
theorem initState_dimsList (frames : List RS.DataFrame) (ti : Nat) :
    (RS.initState frames ti).dimsList = [] := by
  cases frames <;> rfl

/-- Pointwise value of `raiseZeros` inside bounds. -/
theorem raiseZeros_getD (l : List Int) (d : Nat) (hd : d < l.length) :
    (RS.raiseZeros l).getD d 0 = if l.getD d 0 = 0 then 1 else l.getD d 0 := by
  rw [RS.raiseZeros, List.getD_eq_getElem _ 0 (by simpa using hd),
    List.getD_eq_getElem _ 0 hd]
  simp only [List.getElem_map]

/-- C2.  With at least one collected frame and no group-by, the export shape
`getRawValues` infers has one entry per observed repetition depth (the
deepest count tree over the frames), and at each depth the entry is the
maximum count observed for the field at that depth across all frames —
maximum within each frame's per-depth count list, then across frames — with
a depth whose maximum is 0 raised to 1. -/
theorem c2_export_dims_are_max_counts (rs : RS.ResultSet) (fieldName : String)
    (hne : rs.dataFrames ≠ []) :
    (RS.scanOf rs fieldName "").dimsList.length
        = RS.maxSeqLen rs.dataFrames (RS.targetIdxOf rs fieldName) ∧
    ∀ d, d < (RS.scanOf rs fieldName "").dimsList.length →
      (RS.raiseZeros (RS.scanOf rs fieldName "").dimsList).getD d 0
        = max 1 (RS.maxCountAtDepth rs.dataFrames (RS.targetIdxOf rs fieldName) d) := by
  have hsd : (RS.scanOf rs fieldName "").dimsList
      = rs.dataFrames.foldl (fun dl fr =>
          RS.updateDimsList dl ((fr.fieldAtIdx (RS.targetIdxOf rs fieldName)).seqCounts))
        [] := by
    rw [RS.scanOf, RS.scanFrames, scan_foldl_dimsList, initState_dimsList]
  constructor
  · rw [hsd, foldl_updateDimsList_length]
    rfl
  · intro d hd
    have hval : (RS.scanOf rs fieldName "").dimsList.getD d 0
        = RS.maxCountAtDepth rs.dataFrames (RS.targetIdxOf rs fieldName) d := by
      rw [hsd, foldl_updateDimsList_getD]
      rfl
    have hnn : 0 ≤ RS.maxCountAtDepth rs.dataFrames (RS.targetIdxOf rs fieldName) d :=
      maxCount_fold_nonneg _ d rs.dataFrames 0 le_rfl
    rw [raiseZeros_getD _ d hd, hval]
    by_cases hz : RS.maxCountAtDepth rs.dataFrames (RS.targetIdxOf rs fieldName) d = 0
    · simp [hz]
    · rw [if_neg hz, max_eq_right (by omega)]

/-- Witness for C2: two frames reporting 2 and 4 repetitions of `y`. -/
theorem c2_export_dims_witness :
    rsC2W.dataFrames ≠ [] ∧
    (RS.scanOf rsC2W "y" "").dimsList.length
        = RS.maxSeqLen rsC2W.dataFrames (RS.targetIdxOf rsC2W "y") ∧
    (RS.raiseZeros (RS.scanOf rsC2W "y" "").dimsList).getD 0 0
        = max 1 (RS.maxCountAtDepth rsC2W.dataFrames (RS.targetIdxOf rsC2W "y") 0) :=
  ⟨by decide,
   (c2_export_dims_are_max_counts rsC2W "y" (by decide)).1,
   (c2_export_dims_are_max_counts rsC2W "y" (by decide)).2 0 (by decide)⟩

/-- A fold of element writes keeps the container length. -/
theorem foldl_set_length {β : Type} (ix : β → Nat) (vx : β → Int) :
    ∀ (l : List β) (d : List Int),
      (l.foldl (fun acc x => acc.set (ix x) (vx x)) d).length = d.length := by
  intro l
  induction l with
  | nil => intro d; rfl
  | cons x rest ih =>
      intro d
      rw [List.foldl_cons, ih, List.length_set]

/-- The shifted copy loop of the group-by collapse writes slots `1 … m` in
order: its net effect keeps the head and replaces the tail prefix. -/
theorem foldl_set_shift (f : Nat → Int) :
    ∀ (m : Nat) (d : List Int), m + 1 ≤ d.length →
      (List.range m).foldl (fun acc t => acc.set (t + 1) (f t)) d
        = d.take 1 ++ (List.range m).map f ++ d.drop (m + 1) := by
  intro m
  induction m with
  | zero =>
      intro d hd
      simp only [List.range_zero, List.foldl_nil, List.map_nil, List.append_nil,
        Nat.zero_add]
      rw [List.take_append_drop]
  | succ mm ih =>
      intro d hd
      rw [List.range_succ, List.foldl_append, List.foldl_cons, List.foldl_nil,
        ih d (by omega)]
      have hd1 : (d.take 1).length = 1 := by
        rw [List.length_take]; omega
      have hm : (d.take 1 ++ (List.range mm).map f).length = mm + 1 := by
        rw [List.length_append, hd1, List.length_map, List.length_range]
        omega
      rw [List.set_append_right (mm + 1) (f mm) (by rw [hm])]
      rw [hm]
      have hmlt : mm + 1 < d.length := by omega
      rw [List.drop_eq_getElem_cons hmlt]
      simp only [Nat.sub_self, List.set_cons_zero]
      simp [List.range_succ, List.append_assoc]

/-- The per-index reads of the copy loop reproduce the dropped suffix. -/
theorem range_map_getD_drop (l : List Int) (g : Nat) (hg : g ≤ l.length) :
    (List.range (l.length - g)).map (fun t => l.getD (g + t) 0) = l.drop g := by
  apply List.ext_getElem
  · simp
  · intro i h1 h2
    simp only [List.getElem_map, List.getElem_range]
    have hi : g + i < l.length := by
      simp at h1; omega
    rw [List.getD_eq_getElem _ 0 hi]
    simp [List.getElem_drop]

/-- C6.  When a group-by field is given whose repetition depth is at most
the target field's depth count, the export collapses the leading dimensions
up to the group-by depth into a single row axis — the per-frame dims become
the product of the leading dimensions consed onto the untouched trailing
dimensions — and `getRowsForField` cuts each frame into exactly that many
rows of exactly the product of the trailing dimensions elements each. -/
theorem c6_groupby_collapse (st : RS.ScanState) (tf : RS.DataField)
    (dims : List Int)
    (hg0 : 0 < st.groupbyIdx)
    (hgle : st.groupbyIdx ≤ (st.dimsList.length : Int))
    (hfld : st.groupbyIdx ≤ (tf.seqCounts.length : Int)) :
    (RS.placeDims st).1
        = prodInt ((RS.raiseZeros st.dimsList).take st.groupbyIdx.toNat)
          :: (RS.raiseZeros st.dimsList).drop st.groupbyIdx.toNat ∧
    (RS.getRowsForField tf dims st.groupbyIdx).length
        = (prodInt (dims.take st.groupbyIdx.toNat)).toNat ∧
    ∀ row ∈ RS.getRowsForField tf dims st.groupbyIdx,
      row.length = (prodInt (dims.drop st.groupbyIdx.toNat)).toNat := by
  have hgN : st.groupbyIdx.toNat ≤ st.dimsList.length := Int.toNat_le.mpr hgle
  refine ⟨?_, ?_, ?_⟩
  · unfold RS.placeDims
    rw [if_pos hg0, if_neg (not_lt.mpr hgle)]
    simp only []
    set g := st.groupbyIdx.toNat with hgdef
    set A := RS.raiseZeros st.dimsList with hAdef
    have hlenAD : A.length = st.dimsList.length := by
      rw [hAdef, RS.raiseZeros, List.length_map]
    have hset : (List.replicate (st.dimsList.length - g + 1) (1 : Int)).set 0
          ((A.take g).foldl (· * ·) 1)
        = (A.take g).foldl (· * ·) 1
          :: List.replicate (st.dimsList.length - g) (1 : Int) := by
      rw [List.replicate_succ, List.set_cons_zero]
    rw [hset]
    rw [foldl_set_shift (fun t => A.getD (g + t) 0) (A.length - g) _
      (by simp only [List.length_cons, List.length_replicate]; omega)]
    rw [range_map_getD_drop A g (by omega)]
    have hdrop : ((A.take g).foldl (· * ·) 1
        :: List.replicate (st.dimsList.length - g) (1 : Int)).drop (A.length - g + 1)
        = [] := by
      apply List.drop_eq_nil_of_le
      simp only [List.length_cons, List.length_replicate]
      omega
    rw [hdrop]
    simp [prodInt]
  · unfold RS.getRowsForField
    rw [if_pos hg0, if_neg (not_lt.mpr hfld)]
    simp only []
    rw [List.length_map, List.length_range]
  · intro row hrow
    unfold RS.getRowsForField at hrow
    rw [if_pos hg0, if_neg (not_lt.mpr hfld)] at hrow
    simp only [List.mem_map] at hrow
    obtain ⟨i, hi, hrow⟩ := hrow
    rw [← hrow]
    rw [List.length_map, List.length_range]

/-- Witness for C6: two frames with target counts `[2, 2]` and a group-by
field with count 2 at depth 1 give 2 rows of 2 elements per frame. -/
theorem c6_groupby_collapse_witness :
    0 < (RS.scanOf rsC6W "t" "g").groupbyIdx ∧
    (RS.scanOf rsC6W "t" "g").groupbyIdx
        ≤ ((RS.scanOf rsC6W "t" "g").dimsList.length : Int) ∧
    (RS.scanOf rsC6W "t" "g").groupbyIdx
        ≤ (((fieldC6t [1, 2, 3, 4]).seqCounts.length : Nat) : Int) ∧
    ((RS.placeDims (RS.scanOf rsC6W "t" "g")).1
        = prodInt ((RS.raiseZeros (RS.scanOf rsC6W "t" "g").dimsList).take
            (RS.scanOf rsC6W "t" "g").groupbyIdx.toNat)
          :: (RS.raiseZeros (RS.scanOf rsC6W "t" "g").dimsList).drop
            (RS.scanOf rsC6W "t" "g").groupbyIdx.toNat ∧
      (RS.getRowsForField (fieldC6t [1, 2, 3, 4]) [2, 2]
          (RS.scanOf rsC6W "t" "g").groupbyIdx).length
        = (prodInt (([2, 2] : List Int).take
            (RS.scanOf rsC6W "t" "g").groupbyIdx.toNat)).toNat ∧
      ∀ row ∈ RS.getRowsForField (fieldC6t [1, 2, 3, 4]) [2, 2]
          (RS.scanOf rsC6W "t" "g").groupbyIdx,
        row.length = (prodInt (([2, 2] : List Int).drop
            (RS.scanOf rsC6W "t" "g").groupbyIdx.toNat)).toNat) ∧
    RS.getRowsForField (fieldC6t [1, 2, 3, 4]) [2, 2]
        (RS.scanOf rsC6W "t" "g").groupbyIdx = [[1, 2], [3, 4]] :=
  ⟨by decide, by decide, by decide,
   c6_groupby_collapse (RS.scanOf rsC6W "t" "g") (fieldC6t [1, 2, 3, 4]) [2, 2]
     (by decide) (by decide) (by decide),
   by decide⟩

/-- A running maximum never drops below its start. -/
theorem foldl_max_init_le {β : Type} (g : β → Nat) :
    ∀ (l : List β) (init : Nat), init ≤ l.foldl (fun m y => max m (g y)) init := by
  intro l
  induction l with
  | nil => intro init; simp
  | cons y ys ih =>
      intro init
      rw [List.foldl_cons]
      exact le_trans (le_max_left _ _) (ih _)

/-- A running maximum dominates every contribution. -/
theorem foldl_max_le_mem {β : Type} (g : β → Nat) :
    ∀ (l : List β) (x : β), x ∈ l →
      ∀ (init : Nat), g x ≤ l.foldl (fun m y => max m (g y)) init := by
  intro l
  induction l with
  | nil => intro x hx; cases hx
  | cons y ys ih =>
      intro x hx init
      rw [List.foldl_cons]
      rcases List.mem_cons.mp hx with h | h
      · subst h
        exact le_trans (le_max_right _ _) (foldl_max_init_le g ys _)
      · exact ih x h _

/-- C9.  Every `DataField` the collector produces has a non-empty count
tree; hence on a `ResultSet` with at least one collected frame the accesses
`dataFrames_.front()`, `dataFrames_[0]` and `dims[0]` performed by `get`,
`getRawValues` and `unit` are in bounds (the dims vector at the `dims[0]`
access point is non-empty); with zero collected frames that dims vector is
empty, so `dims[0]` and `dataFrames_.front()` index empty containers. -/
theorem c9_access_bounds :
    (∀ (lookup : Nat → QR.NodeData) (targ : QR.Target),
      (QR.collectDataField lookup targ).seqCounts ≠ []) ∧
    (∀ (rs : RS.ResultSet) (f g : String), rs.dataFrames ≠ [] →
      (∀ fr ∈ rs.dataFrames,
        (fr.fieldAtIdx (RS.targetIdxOf rs f)).seqCounts ≠ []) →
      0 < rs.dataFrames.length ∧ 0 < (RS.dimsBeforeExport rs f g).length) ∧
    (∀ (rs : RS.ResultSet) (f g : String), rs.dataFrames = [] →
      RS.dimsBeforeExport rs f g = [] ∧
      ¬ 0 < (RS.dimsBeforeExport rs f g).length ∧
      ¬ 0 < rs.dataFrames.length) := by
  refine ⟨?_, ?_, ?_⟩
  · intro lookup targ
    unfold QR.collectDataField
    split
    · simp
    · simp [QR.collectSeqCounts]
  · intro rs f g hne hsc
    refine ⟨List.length_pos.mpr hne, ?_⟩
    obtain ⟨f0, rest, hfr⟩ := List.exists_cons_of_ne_nil hne
    have hmem : f0 ∈ rs.dataFrames := by
      rw [hfr]; exact List.mem_cons_self _ _
    have hL : 0 < (RS.scanOf rs f g).dimsList.length := by
      have hsd : (RS.scanOf rs f g).dimsList.length
          = rs.dataFrames.foldl (fun n fr =>
              max n ((fr.fieldAtIdx (RS.targetIdxOf rs f)).seqCounts.length)) 0 := by
        rw [RS.scanOf, RS.scanFrames, scan_foldl_dimsList,
          foldl_updateDimsList_length, initState_dimsList]
        rfl
      have h1 := foldl_max_le_mem
        (fun fr => (fr.fieldAtIdx (RS.targetIdxOf rs f)).seqCounts.length)
        rs.dataFrames f0 hmem 0
      have h2 : 0 < (f0.fieldAtIdx (RS.targetIdxOf rs f)).seqCounts.length :=
        List.length_pos.mpr (hsc f0 hmem)
      omega
    unfold RS.dimsBeforeExport RS.placeDims
    by_cases h1 : (RS.scanOf rs f g).groupbyIdx > 0
    · by_cases h2 : (RS.scanOf rs f g).groupbyIdx
          > (((RS.scanOf rs f g).dimsList.length : Nat) : Int)
      · rw [if_pos h1, if_pos h2]
        simp
      · rw [if_pos h1, if_neg h2]
        simp only []
        rw [foldl_set_length (fun t => t + 1)
          (fun t => (RS.raiseZeros (RS.scanOf rs f g).dimsList).getD
            ((RS.scanOf rs f g).groupbyIdx.toNat + t) 0)]
        rw [List.length_set, List.length_replicate]
        omega
    · rw [if_neg h1]
      simp only []
      rw [RS.raiseZeros, List.length_map]
      exact hL
  · intro rs f g h
    have hdims : RS.dimsBeforeExport rs f g = [] := by
      unfold RS.dimsBeforeExport RS.scanOf RS.scanFrames
      rw [h]
      rfl
    exact ⟨hdims, by simp [hdims], by simp [h]⟩

/-- Witness for C9: one collected frame makes the accesses in bounds; the
empty result set leaves the dims vector empty. -/
theorem c9_access_bounds_witness :
    rsC9W.dataFrames ≠ [] ∧
    (0 < rsC9W.dataFrames.length ∧ 0 < (RS.dimsBeforeExport rsC9W "z" "").length) ∧
    (RS.dimsBeforeExport rsC9E "z" "" = [] ∧
      ¬ 0 < (RS.dimsBeforeExport rsC9E "z" "").length ∧
      ¬ 0 < rsC9E.dataFrames.length) :=
  ⟨by decide,
   c9_access_bounds.2.1 rsC9W "z" "" (by decide) (by decide),
   c9_access_bounds.2.2 rsC9E "z" "" (by decide)⟩
